import Mathlib

/-!
Shallow embedding of the kronilo-worker translation pipeline
(input normalizer, output validator, quota tracker, orchestrator,
HTTP handler glue) and proofs about the claims of the specification.

Strings are modelled as Lean `String`s (lists of Unicode scalar values);
JavaScript string primitives (`trim`, `split(/\s+/)`, `toLowerCase`,
`includes`, character comparison) are embedded as the explicit functions
below.  JS `length` counts UTF-16 code units while `String.length` here
counts scalar values; the two agree on all inputs without astral-plane
characters.  JS `toLowerCase` is modelled on its ASCII fragment (the
only fragment the validator's patterns and the repository's literals
exercise).
-/

namespace Kronilo

/-- Code points of the JavaScript `\s` class (WhiteSpace ∪ LineTerminator),
the set used both by `String.prototype.trim` and by the `/\s+/` regexes in
`utils.ts`. -/
def wsCodes : List Nat :=
  [9, 10, 11, 12, 13, 32, 160, 0x1680,
   0x2000, 0x2001, 0x2002, 0x2003, 0x2004, 0x2005, 0x2006, 0x2007,
   0x2008, 0x2009, 0x200A, 0x2028, 0x2029, 0x202F, 0x205F, 0x3000, 0xFEFF]

/-- Whether a character is JavaScript whitespace (member of `\s`). -/
def jsWs (c : Char) : Bool := decide (c.toNat ∈ wsCodes)

/-- JavaScript `String.prototype.trim` on a list of characters: drop
whitespace from both ends. -/
def trimL (l : List Char) : List Char :=
  ((l.dropWhile jsWs).reverse.dropWhile jsWs).reverse

/-- JavaScript `String.prototype.trim`. -/
def jsTrimStr (s : String) : String := String.mk (trimL s.toList)

/-- JavaScript `String.prototype.toLowerCase` restricted to its ASCII
action: uppercase A–Z map to a–z, everything else is unchanged. -/
def lowerChar (c : Char) : Char :=
  if 65 ≤ c.toNat ∧ c.toNat ≤ 90 then Char.ofNat (c.toNat + 32) else c

/-- Replacement of every maximal whitespace run by a single space:
the effect of `.replace(/\s+/g, " ")` (a run of `k ≥ 1` consecutive `\s`
characters is one regex match, replaced by one space). -/
def collapseWs : List Char → List Char
  | [] => []
  | [c] => if jsWs c then [' '] else [c]
  | c :: d :: rest =>
    if jsWs c then
      if jsWs d then collapseWs (d :: rest)
      else ' ' :: collapseWs (d :: rest)
    else c :: collapseWs (d :: rest)

/-- Split a list at every occurrence of the separator character (the
separator is consumed; adjacent separators produce empty pieces), as
JavaScript `String.prototype.split` with a single-character separator. -/
def splitCh (sep : Char) : List Char → List (List Char)
  | [] => [[]]
  | c :: rest =>
    match splitCh sep rest with
    | t :: ts => if c = sep then [] :: t :: ts else (c :: t) :: ts
    | [] => [[c]]

/-- JavaScript `s.split(/\s+/)` : since every maximal whitespace run is one
separator match, this is collapsing runs to single spaces followed by
splitting at each space. -/
def jsSplitWs (s : String) : List String :=
  (splitCh ' ' (collapseWs s.toList)).map String.mk

/-- JavaScript `String.prototype.includes` (substring test). -/
def hasSubstr (hay needle : List Char) : Bool :=
  hay.tails.any (fun t => needle.isPrefixOf t)

/-- Case-insensitive (`/i`) matching is modelled by lowercasing the
subject before comparing with the (already lowercase) pattern word. -/
def lowerL (l : List Char) : List Char := l.map lowerChar

/- ------------------------------------------------------------------
src/utils.ts
------------------------------------------------------------------ -/

/-- Mirror of `sanitizeInput` (utils.ts:30-34): keep only characters that
are space (0x20) or above, excluding DEL (0x7F).  The JS comparison
`c >= " "` on single characters is comparison of code units, i.e. of
code points here. -/
def sanitizeInput (s : String) : String :=
  String.mk (s.toList.filter (fun c => 32 ≤ c.toNat && c.toNat ≠ 127))

/-- List-level body of `processInput` (utils.ts:43-47):
`sanitizeInput(input.trim().toLowerCase().replace(/\s+/g, " "))`. -/
def processInputL (l : List Char) : List Char :=
  (collapseWs ((trimL l).map lowerChar)).filter
    (fun c => 32 ≤ c.toNat && c.toNat ≠ 127)

/-- Mirror of `processInput` (utils.ts:43-47): trim, lowercase, collapse
whitespace runs to single spaces, then sanitize. -/
def processInput (s : String) : String := String.mk (processInputL s.toList)

/-- Numeral pattern `[0-5]?\d` of the minute field. -/
def d05 (s : String) : Bool :=
  match s.toList with
  | [a] => a.isDigit
  | [a, b] => (48 ≤ a.toNat && a.toNat ≤ 53) && b.isDigit
  | _ => false

/-- Numeral pattern `[1-5]?\d` of the minute step denominator. -/
def d15 (s : String) : Bool :=
  match s.toList with
  | [a] => a.isDigit
  | [a, b] => (49 ≤ a.toNat && a.toNat ≤ 53) && b.isDigit
  | _ => false

/-- Numeral pattern `[01]?\d|2[0-3]` of the hour field. -/
def hourNum (s : String) : Bool :=
  match s.toList with
  | [a] => a.isDigit
  | [a, b] => ((a = '0' || a = '1') && b.isDigit) || (a = '2' && (48 ≤ b.toNat && b.toNat ≤ 51))
  | _ => false

/-- Numeral pattern `[12]?\d|3[01]` of the day-of-month field. -/
def dayNum (s : String) : Bool :=
  match s.toList with
  | [a] => a.isDigit
  | [a, b] => ((a = '1' || a = '2') && b.isDigit) || (a = '3' && (b = '0' || b = '1'))
  | _ => false

/-- Numeral pattern `[1-9]|1[0-2]` of the month field. -/
def monthNum (s : String) : Bool :=
  match s.toList with
  | [a] => 49 ≤ a.toNat && a.toNat ≤ 57
  | [a, b] => a = '1' && (48 ≤ b.toNat && b.toNat ≤ 50)
  | _ => false

/-- Numeral pattern `[0-6]` of the day-of-week field. -/
def dowNum (s : String) : Bool :=
  match s.toList with
  | [a] => 48 ≤ a.toNat && a.toNat ≤ 54
  | _ => false

/-- Shape of each anchored field regex in `isValidCron` (utils.ts:75-83):
`^(\*|D(,D)*|D-D|\*/S|D/S)$` for a field-numeral pattern `D` and step
pattern `S`.  Because `D` and `S` match only digit strings, each
alternative is characterized by splitting at its separator character:
the comma alternative (which also subsumes the bare-`D` alternative as a
one-element list), the dash range, and the slash step. -/
def fieldPat (D S : String → Bool) (f : String) : Bool :=
  f = "*" ||
  ((splitCh ',' f.toList).all (fun p => D (String.mk p))) ||
  (match splitCh '-' f.toList with
   | [a, b] => D (String.mk a) && D (String.mk b)
   | _ => false) ||
  (match splitCh '/' f.toList with
   | [a, b] => (String.mk a = "*" || D (String.mk a)) && S (String.mk b)
   | _ => false)

/-- Minute field pattern (utils.ts:75-76). -/
def minutePat : String → Bool := fieldPat d05 d15

/-- Hour field pattern (utils.ts:77-78). -/
def hourPat : String → Bool := fieldPat hourNum hourNum

/-- Day-of-month field pattern (utils.ts:79-80). -/
def dayPat : String → Bool := fieldPat dayNum dayNum

/-- Month field pattern (utils.ts:81-82). -/
def monthPat : String → Bool := fieldPat monthNum monthNum

/-- Day-of-week field pattern (utils.ts:83). -/
def dowPat : String → Bool := fieldPat dowNum dowNum

/-- Mirror of `isValidCron` (utils.ts:65-92): trim, split on whitespace,
require exactly five fields, and test each against its pattern. -/
def isValidCron (cron : String) : Bool :=
  match jsSplitWs (jsTrimStr cron) with
  | [minute, hour, dom, month, dow] =>
    minutePat minute && hourPat hour && dayPat dom && monthPat month && dowPat dow
  | _ => false

/-- Conversational lead-in rejection `/^(here|the|this|that|it|expression|cron)/i`
(utils.ts:120). -/
def proseLeadIn (t : List Char) : Bool :=
  ["here", "the", "this", "that", "it", "expression", "cron"].any
    (fun w => w.toList.isPrefixOf (lowerL t))

/-- Code-fence rejection `/^(```|`)/` (utils.ts:121): equivalent to
starting with a backtick. -/
def startsFence (t : List Char) : Bool :=
  match t with
  | c :: _ => c.toNat = 96
  | [] => false

/-- Explanatory-vocabulary rejection `/explanation|description|means|represents/i`
(utils.ts:122). -/
def hasVocab (t : List Char) : Bool :=
  ["explanation", "description", "means", "represents"].any
    (fun w => hasSubstr (lowerL t) w.toList)

/-- Newline rejection `/\n/` (utils.ts:123). -/
def hasNewline (t : List Char) : Bool := t.contains (Char.ofNat 10)

/-- Result record of `validateApiResponse`. -/
structure VerdictR where
  isValid : Bool
  error : Option String
deriving DecidableEq

/-- Mirror of `validateApiResponse` (utils.ts:109-140): reject the empty
string, then reject when any of the four prose patterns matches the
trimmed response (all four produce the same error text, so testing them
in order is equivalent to testing their disjunction), then delegate to
`isValidCron`. -/
def validateApiResponse (response : String) : VerdictR :=
  if response = "" then ⟨false, some "Empty or invalid response"⟩
  else if proseLeadIn (jsTrimStr response).toList ||
      startsFence (jsTrimStr response).toList ||
      hasVocab (jsTrimStr response).toList ||
      hasNewline (jsTrimStr response).toList then
    ⟨false, some ("Response contains invalid pattern: " ++ jsTrimStr response)⟩
  else if !(isValidCron (jsTrimStr response)) then
    ⟨false, some ("Invalid cron format: " ++ jsTrimStr response)⟩
  else ⟨true, none⟩

/- ------------------------------------------------------------------
rateLimit.ts (burst-protected KV revision): sliding-window per-caller
limit + burst sub-window + debounced global daily counter.

KV I/O is modelled explicitly: `kvUser` is the per-caller timestamp
store (`rate_${ip}` keys; a stored value that fails `JSON.parse` is
swallowed by the empty `catch {}` and behaves as absent, so it is
modelled as `none`), `kvDaily` the `daily_usage` record, and
`cachedDailyUsage` the module-level in-process cache.  A thrown KV
error is modelled by the boolean fault flags `gF` (all `kv.get`s throw)
and `pF` (all `kv.put`s throw) together with an `Except` result; the
state component of the pair is the state at the moment of the throw,
since assignments before the throw survive it.
------------------------------------------------------------------ -/

/-- Record cached for the daily counter (`{count, date, lastWrite}`).
The JS `stored.lastWrite || 0` applies to a possibly-absent field; the
structured model always carries the field, on which `|| 0` is the
identity for the values the module itself writes. -/
structure DailyUsage where
  count : Nat
  date : String
  lastWrite : Int
deriving DecidableEq

/-- Snapshot returned by `getDailyUsage`. -/
structure UsageSnap where
  count : Nat
  date : String
  remaining : Int
deriving DecidableEq

/-- The externally stored quota state plus the module-level cache. -/
structure RateState where
  kvUser : String → Option (List Int)
  kvDaily : Option DailyUsage
  cachedDailyUsage : Option DailyUsage

/-- The rate-limit constants of the module (different historical
revisions pick different values; see `burstRateConfig` and
`hourlyRateConfig`). -/
structure RateConfig where
  dailyLimit : Nat
  max : Nat
  window : Int
  burstWindow : Int
  burstLimit : Nat

/-- Constants of the burst-protected revision (rateLimit.ts:25-45 /
part_008:7-11): `DAILY_API_LIMIT = 20`, `RATE_LIMIT_MAX = 2`,
`RATE_LIMIT_WINDOW = 24h`, `BURST_WINDOW_MS = 60s`, `BURST_LIMIT = 2`. -/
def burstRateConfig : RateConfig :=
  ⟨20, 2, 24 * 60 * 60 * 1000, 60 * 1000, 2⟩

/-- The same sliding-window algorithm configured with the values named
by the spec's quota scenario: `perCallerMax = 3`, `window = 1h` (the
values of the map-based revision), burst and debounce constants as in
the burst revision, `DAILY_API_LIMIT = 50`. -/
def hourlyRateConfig : RateConfig :=
  ⟨50, 3, 60 * 60 * 1000, 60 * 1000, 2⟩

/-- Debounce interval for daily-usage KV writes (`WRITE_DEBOUNCE_MS`). -/
def WRITE_DEBOUNCE_MS : Int := 2000

/-- Outcome of `checkRateLimit`, refined by which `return false` site
produced a denial.  The JS function returns only a boolean; the
constructor records which branch returned it. -/
inductive RateResult
  | allowed
  | deniedDaily
  | deniedWindow
  | deniedBurst
deriving DecidableEq

/-- KV-reading arm of `getDailyUsageInternal` (rateLimit.ts:115-132),
reached when the in-process cache is absent or stale: read the stored
record, keep it only if its date is today, and refresh the cache. -/
def dailyReadKv (gF : Bool) (today : String) (st : RateState) :
    Except Unit DailyUsage × RateState :=
  if gF then (.error (), st)
  else
    let d0 : DailyUsage :=
      match st.kvDaily with
      | some stored => if stored.date = today then stored else ⟨0, today, 0⟩
      | none => ⟨0, today, 0⟩
    (.ok d0, { st with cachedDailyUsage := some d0 })

/-- Mirror of `getDailyUsageInternal` (rateLimit.ts:115-132). -/
def getDailyUsageInternalE (gF : Bool) (today : String) (st : RateState) :
    Except Unit DailyUsage × RateState :=
  match st.cachedDailyUsage with
  | some c => if c.date = today then (.ok c, st) else dailyReadKv gF today st
  | none => dailyReadKv gF today st

/-- Mirror of `updateDailyUsage` (rateLimit.ts:142-155): refresh the
in-process cache with `lastWrite := now`, and write through to KV only
when the debounce interval has passed since the previous write. -/
def updateDailyUsage (pF : Bool) (u : DailyUsage) (now : Int) (st : RateState) :
    Except Unit Unit × RateState :=
  let cached : DailyUsage := { u with lastWrite := now }
  let st' := { st with cachedDailyUsage := some cached }
  if now - u.lastWrite > WRITE_DEBOUNCE_MS then
    if pF then (.error (), st')
    else (.ok (), { st' with kvDaily := some cached })
  else (.ok (), st')

/-- Mirror of `checkRateLimit` (rateLimit.ts:64-105 / part_008:41-82):
daily global cap first, then the per-caller sliding window (prune
entries older than the window, deny at the cap), then the burst
sub-window, then append the timestamp and bump the daily counter. -/
def checkRateLimitE (gF pF : Bool) (cfg : RateConfig) (now : Int)
    (today ip : String) (st : RateState) : Except Unit RateResult × RateState :=
  match getDailyUsageInternalE gF today st with
  | (.error e, st1) => (.error e, st1)
  | (.ok dailyUsage, st1) =>
    if cfg.dailyLimit ≤ dailyUsage.count then (.ok .deniedDaily, st1)
    else if gF then (.error (), st1)
    else
      let timestamps := ((st1.kvUser ip).getD []).filter (fun ts => now - ts < cfg.window)
      if cfg.max ≤ timestamps.length then (.ok .deniedWindow, st1)
      else if cfg.burstLimit ≤ (timestamps.filter (fun ts => now - ts < cfg.burstWindow)).length then
        (.ok .deniedBurst, st1)
      else if pF then (.error (), st1)
      else
        let st2 := { st1 with
          kvUser := fun k => if k = ip then some (timestamps ++ [now]) else st1.kvUser k }
        match updateDailyUsage pF { dailyUsage with count := dailyUsage.count + 1 } now st2 with
        | (.error e, st3) => (.error e, st3)
        | (.ok _, st3) => (.ok .allowed, st3)

/-- Mirror of `getDailyUsage` (rateLimit.ts:164-173): read today's usage
(through the cache) and report count, date and remaining calls. -/
def getDailyUsageE (cfg : RateConfig) (gF : Bool) (today : String) (st : RateState) :
    Except Unit UsageSnap × RateState :=
  match getDailyUsageInternalE gF today st with
  | (.error e, st') => (.error e, st')
  | (.ok u, st') =>
    (.ok ⟨u.count, u.date, (cfg.dailyLimit : Int) - (u.count : Int)⟩, st')

/- ------------------------------------------------------------------
Translation orchestrator (part_010:168-170, 293-376): primary model
with one timeout retry, then one backup attempt.
------------------------------------------------------------------ -/

/-- Primary model identifier (part_010:169). -/
def PRIMARY_MODEL : String := "google/gemini-2.0-flash-exp:free"

/-- Backup model identifier (part_010:170). -/
def BACKUP_MODEL : String := "mistralai/mistral-7b-instruct:free"

/-- Cache-format version tag (part_010:168). -/
def CACHE_VERSION : String := "v5"

/-- Successful translation payload `{cron, model, input}`. -/
structure ApiSuccess where
  cron : String
  model : String
  input : String
deriving DecidableEq

/-- Behaviour of the external model provider on one call: either the
transport layer fails (timeouts included) with an error whose message is
`msg`, or it succeeds and the first choice's message content is `text`
(absent content is the empty string). -/
inductive CallOutcome
  | transport (msg : String)
  | output (text : String)

/-- Request parameters of one chat-completion call that the claims talk
about: the model asked, the sampling temperature, and the per-call
timeout (part_010:300-311). -/
structure CallSpec where
  model : String
  temperature : ℚ
  timeoutMs : Nat
deriving DecidableEq

/-- Sampling temperature by attempt index: `attempt > 1 ? 0.1 : 0`
(part_010:308). -/
def reqTemp (attempt : Nat) : ℚ := if 1 < attempt then 1 / 10 else 0

/-- Mirror of `makeApiCall` (part_010:295-323) for one call with a given
provider behaviour: trim the raw output, validate it, and either return
the success payload or the thrown error's message (the validation
failure is thrown as `Error(validation.error)`, so its message echoes
the offending output). -/
def makeApiCall (model : String) (attempt : Nat) (input : String)
    (oc : CallOutcome) : CallSpec × Except String ApiSuccess :=
  (⟨model, reqTemp attempt, 5000⟩,
   match oc with
   | .transport msg => .error msg
   | .output text =>
     let out := jsTrimStr text
     let v := validateApiResponse out
     if v.isValid then .ok ⟨out, model, input⟩
     else .error (v.error.getD "Invalid response format"))

/-- The timeout classification of `makeApiCall`'s catch block:
`err.message.includes("timeout")` (part_010:318). -/
def hasTimeoutWord (msg : String) : Bool :=
  hasSubstr msg.toList "timeout".toList

/-- Trace of one orchestrator run: the final values of the JS variables
`result`, `usedModel`, `attempts`, `timeoutError`, `lastError`, plus the
sequence of calls issued and of backoff delays awaited. -/
structure OrchResult where
  result : Option ApiSuccess
  usedModel : Option String
  attempts : Nat
  timeoutError : Bool
  calls : List CallSpec
  delays : List Nat
  lastError : Option String
deriving DecidableEq

/-- Mirror of the retry/fallback loop (part_010:325-376) with the
two-iteration primary loop unrolled.  `script n` is the provider's
behaviour on the n-th call issued.  After a failed first attempt the
loop retries the primary (after a 250ms delay, with the raised
temperature) exactly when the cumulative `timeoutError` flag is set,
i.e. when the caught error's message contains `"timeout"`; otherwise it
breaks to the single backup attempt. -/
def runTranslate (script : Nat → CallOutcome) (input : String) : OrchResult :=
  let (c1, r1) := makeApiCall PRIMARY_MODEL 1 input (script 0)
  match r1 with
  | .ok res => ⟨some res, some PRIMARY_MODEL, 1, false, [c1], [], none⟩
  | .error e1 =>
    if hasTimeoutWord e1 then
      let (c2, r2) := makeApiCall PRIMARY_MODEL 2 input (script 1)
      match r2 with
      | .ok res => ⟨some res, some PRIMARY_MODEL, 2, true, [c1, c2], [250], some e1⟩
      | .error e2 =>
        let (c3, r3) := makeApiCall BACKUP_MODEL 1 input (script 2)
        match r3 with
        | .ok res =>
          ⟨some res, some BACKUP_MODEL, 3, true, [c1, c2, c3], [250], some e2⟩
        | .error e3 =>
          ⟨none, none, 3, true, [c1, c2, c3], [250], some e3⟩
    else
      let (c3, r3) := makeApiCall BACKUP_MODEL 1 input (script 1)
      match r3 with
      | .ok res => ⟨some res, some BACKUP_MODEL, 2, false, [c1, c3], [], some e1⟩
      | .error e3 => ⟨none, none, 2, hasTimeoutWord e3, [c1, c3], [], some e3⟩

/- ------------------------------------------------------------------
HTTP handler glue for POST /api/translate (part_010:172-427).
------------------------------------------------------------------ -/

/-- UTF-8 encoding of one Unicode scalar value. -/
def utf8Bytes (n : Nat) : List Nat :=
  if n < 0x80 then [n]
  else if n < 0x800 then [0xC0 + n / 0x40, 0x80 + n % 0x40]
  else if n < 0x10000 then [0xE0 + n / 0x1000, 0x80 + (n / 0x40) % 0x40, 0x80 + n % 0x40]
  else [0xF0 + n / 0x40000, 0x80 + (n / 0x1000) % 0x40, 0x80 + (n / 0x40) % 0x40, 0x80 + n % 0x40]

/-- Uppercase hexadecimal digit. -/
def hexDigit (n : Nat) : Char :=
  if n < 10 then Char.ofNat (48 + n) else Char.ofNat (55 + n)

/-- Characters `encodeURIComponent` leaves unescaped:
alphanumerics and `- _ . ! ~ * ' ( )`. -/
def uriUnreserved (c : Char) : Bool :=
  c.isAlpha || c.isDigit || [45, 95, 46, 33, 126, 42, 39, 40, 41].contains c.toNat

/-- JavaScript `encodeURIComponent`: percent-encode the UTF-8 bytes of
every reserved character. -/
def encodeURIComponent (s : String) : String :=
  String.mk (s.toList.flatMap (fun c =>
    if uriUnreserved c then [c]
    else (utf8Bytes c.toNat).flatMap (fun b => ['%', hexDigit (b / 16), hexDigit (b % 16)])))

/-- Cache key URL (part_010:257-259):
`https://cache.kronilo/translate?version=${CACHE_VERSION}&input=${encodeURIComponent(trimmedInput)}`. -/
def cacheKeyUrl (version input : String) : String :=
  "https://cache.kronilo/translate?version=" ++ version ++ "&input=" ++
    encodeURIComponent input

/-- Markup/injection denylist `/[<>"'`]/g` of the handler. -/
def denyChars : List Char :=
  ['<', '>', Char.ofNat 34, Char.ofNat 39, Char.ofNat 96]

/-- The handler's input normalization (part_010:199-202):
`processInput(input).replace(/[<>"'`]/g, "").replace(/\s+/g, " ").trim()`. -/
def normalizeFull (s : String) : String :=
  String.mk (trimL (collapseWs
    ((processInputL s.toList).filter (fun c => !(denyChars.contains c)))))

/-- Caller identity (part_010:223-226):
`CF-Connecting-IP || x-forwarded-for || "unknown"`; JS `||` skips both
absent and empty headers. -/
def pickIp (a b : Option String) : String :=
  let v1 := a.getD ""
  if v1 ≠ "" then v1
  else
    let v2 := b.getD ""
    if v2 ≠ "" then v2 else "unknown"

/-- Value stored in the edge cache under a key: a parseable successful
payload, or a stored response whose body fails `cached.json()` (which is
caught and treated as a miss). -/
inductive CachedBody
  | ok (v : ApiSuccess)
  | junk
deriving DecidableEq

/-- The JSON response bodies of the handler (each with the fields the
code serializes; the whitelisted `details` of the 500 catch-all are
omitted). -/
inductive RespBody
  | errMsg (e : String)
  | rateErr (e : String) (daily : Bool) (usage : UsageSnap)
  | ok (r : ApiSuccess)
  | translateFail (input : String) (model : Option String) (attempts : Nat)
      (lastErr : Option String)
deriving DecidableEq

/-- Environment of a single request: configuration, headers, stores,
injected I/O faults, and the model provider's behaviour. -/
structure World where
  apiKey : Option String
  hdrCfIp : Option String
  hdrXff : Option String
  now : Int
  today : String
  cfg : RateConfig
  rate : RateState
  cacheStore : String → Option CachedBody
  quotaGetFault : Bool
  quotaPutFault : Bool
  cacheMatchFault : Bool
  cachePutFault : Bool
  script : Nat → CallOutcome

/-- Result of handling one request: HTTP status, body, the quota state
and cache contents afterwards, the number of model calls issued, and
the `attempts` metric. -/
structure HResult where
  status : Nat
  body : RespBody
  rate : RateState
  cache : String → Option CachedBody
  modelCalls : Nat
  attemptsMetric : Nat

/-- Mirror of the `/api/translate` handler (part_010:172-427):
missing-key check, normalization, length and emptiness checks, rate
limiting (a thrown quota-store error propagates to the catch-all and
yields a 500), cache lookup (a thrown cache error is swallowed and
treated as a miss), orchestrator run, and best-effort cache write (a
thrown cache write is swallowed). -/
def handleTranslate (w : World) (input : String) : HResult :=
  match w.apiKey with
  | none =>
    ⟨500, .errMsg "Missing OPENROUTER_API_KEY environment variable", w.rate, w.cacheStore, 0, 0⟩
  | some _ =>
    let t := normalizeFull input
    if 200 < t.length then
      ⟨413, .errMsg "Input too long (max 200 characters)", w.rate, w.cacheStore, 0, 0⟩
    else if t = "" then
      ⟨400, .errMsg "Missing input field", w.rate, w.cacheStore, 0, 0⟩
    else
      let ip := pickIp w.hdrCfIp w.hdrXff
      match checkRateLimitE w.quotaGetFault w.quotaPutFault w.cfg w.now w.today ip w.rate with
      | (.error _, st1) => ⟨500, .errMsg "Internal server error", st1, w.cacheStore, 0, 0⟩
      | (.ok .allowed, st1) =>
        let key := cacheKeyUrl CACHE_VERSION t
        let hitVal : Option ApiSuccess :=
          match (if w.cacheMatchFault then none else w.cacheStore key) with
          | some (.ok v) => some v
          | _ => none
        match hitVal with
        | some v => ⟨200, .ok v, st1, w.cacheStore, 0, 0⟩
        | none =>
          let o := runTranslate w.script t
          match o.result with
          | none =>
            ⟨400, .translateFail t o.usedModel o.attempts o.lastError, st1,
              w.cacheStore, o.calls.length, o.attempts⟩
          | some r =>
            let cache' := if w.cachePutFault then w.cacheStore
              else fun k => if k = key then some (.ok r) else w.cacheStore k
            ⟨200, .ok r, st1, cache', o.calls.length, o.attempts⟩
      | (.ok _, st1) =>
        match getDailyUsageE w.cfg w.quotaGetFault w.today st1 with
        | (.error _, st2) => ⟨500, .errMsg "Internal server error", st2, w.cacheStore, 0, 0⟩
        | (.ok usage, st2) =>
          let isDaily := usage.remaining ≤ 0
          let msg := if isDaily then "Daily API limit reached. Please try again tomorrow."
            else "Rate limit exceeded. Please try again later."
          ⟨429, .rateErr msg isDaily usage, st2, w.cacheStore, 0, 0⟩

/- ------------------------------------------------------------------
Helper lemmas.
------------------------------------------------------------------ -/

/-- With no get fault, the daily read always succeeds. -/
lemma dailyRead_noFault (today : String) (st : RateState) :
    ∃ u st', getDailyUsageInternalE false today st = (.ok u, st') := by
  unfold getDailyUsageInternalE dailyReadKv
  simp only [Bool.false_eq_true, reduceIte]
  repeat' split
  all_goals exact ⟨_, _, rfl⟩

/-- With no put fault, the debounced daily write always succeeds. -/
lemma updateDaily_noFault (u : DailyUsage) (now : Int) (st : RateState) :
    ∃ st', updateDailyUsage false u now st = (.ok (), st') := by
  unfold updateDailyUsage
  split
  · exact ⟨_, rfl⟩
  · exact ⟨_, rfl⟩

/-- The daily read never touches the KV-resident parts of the state:
only the in-process cache can change. -/
lemma dailyRead_frame (gF : Bool) (today : String) (st : RateState) :
    (getDailyUsageInternalE gF today st).2.kvUser = st.kvUser ∧
    (getDailyUsageInternalE gF today st).2.kvDaily = st.kvDaily := by
  unfold getDailyUsageInternalE dailyReadKv
  repeat' split
  all_goals exact ⟨rfl, rfl⟩

/- Lemmas about the normalization primitives, used for the idempotence
analysis of `processInput`. -/

lemma toNat_ofNat_valid (n : Nat) (h : n.isValidChar) : (Char.ofNat n).toNat = n := by
  simp only [Char.ofNat, Char.ofNatAux, dif_pos h]
  rfl

lemma lowerChar_toNat (c : Char) (h : 65 ≤ c.toNat ∧ c.toNat ≤ 90) :
    (lowerChar c).toNat = c.toNat + 32 := by
  have hv : (c.toNat + 32).isValidChar := by
    left
    omega
  simp only [lowerChar, if_pos h]
  exact toNat_ofNat_valid _ hv

lemma lowerChar_eq_self (c : Char) (h : ¬(65 ≤ c.toNat ∧ c.toNat ≤ 90)) :
    lowerChar c = c := by
  unfold lowerChar
  rw [if_neg h]

lemma lowerChar_idem (c : Char) : lowerChar (lowerChar c) = lowerChar c := by
  by_cases h : 65 ≤ c.toNat ∧ c.toNat ≤ 90
  · apply lowerChar_eq_self
    have := lowerChar_toNat c h
    omega
  · rw [lowerChar_eq_self c h]
    exact lowerChar_eq_self c h

lemma lowerL_idem (l : List Char) : lowerL (lowerL l) = lowerL l := by
  induction l with
  | nil => rfl
  | cons c t ih =>
    simp only [lowerL, List.map_cons] at ih ⊢
    rw [lowerChar_idem, ih]

lemma wsCodes_bounds : ∀ n ∈ wsCodes, n ≤ 32 ∨ n = 160 ∨ 5760 ≤ n := by decide

lemma jsWs_false_of_between (c : Char) (h1 : 33 ≤ c.toNat) (h2 : c.toNat ≤ 159) :
    jsWs c = false := by
  unfold jsWs
  simp only [decide_eq_false_iff_not]
  intro hmem
  rcases wsCodes_bounds _ hmem with h | h | h <;> omega

lemma jsWs_lowerChar (c : Char) : jsWs (lowerChar c) = jsWs c := by
  by_cases h : 65 ≤ c.toNat ∧ c.toNat ≤ 90
  · have ht := lowerChar_toNat c h
    rw [jsWs_false_of_between c (by omega) (by omega),
      jsWs_false_of_between (lowerChar c) (by omega) (by omega)]
  · rw [lowerChar_eq_self c h]

lemma collapse_cons_not_ws (c : Char) (t : List Char) (h : jsWs c = false) :
    collapseWs (c :: t) = c :: collapseWs t := by
  cases t <;> simp only [collapseWs, h, Bool.false_eq_true, reduceIte]

lemma collapse_append_not_ws (l : List Char) (c : Char) (h : jsWs c = false) :
    collapseWs (l ++ [c]) = collapseWs l ++ [c] := by
  induction l using collapseWs.induct with
  | case1 => simp only [List.nil_append, collapseWs, h, Bool.false_eq_true, reduceIte]
  | case2 a hw => simp [collapseWs, hw, h]
  | case3 a hw => simp [collapseWs, hw, h]
  | case4 a d rest h1 h2 ih =>
    simp only [List.cons_append] at ih ⊢
    simp [collapseWs, h1, h2] at ih ⊢
    exact ih
  | case5 a d rest h1 h2 ih =>
    simp only [List.cons_append] at ih ⊢
    simp [collapseWs, h1, h2] at ih ⊢
    exact ih
  | case6 a d rest h1 ih =>
    simp only [List.cons_append] at ih ⊢
    simp [collapseWs, h1] at ih ⊢
    exact ih

lemma mem_collapseWs (l : List Char) : ∀ c ∈ collapseWs l, c ∈ l ∨ c = ' ' := by
  induction l using collapseWs.induct with
  | case1 => intro c hc; simp [collapseWs] at hc
  | case2 a hw =>
    intro c hc
    simp [collapseWs, hw] at hc
    right; exact hc
  | case3 a hw =>
    intro c hc
    simp [collapseWs, hw] at hc
    left; simp [hc]
  | case4 a d rest h1 h2 ih =>
    intro c hc
    simp only [collapseWs, h1, h2, if_true] at hc
    rcases ih c hc with h | h
    · left; exact List.mem_cons_of_mem a h
    · right; exact h
  | case5 a d rest h1 h2 ih =>
    intro c hc
    simp only [collapseWs, h1, h2, if_true, Bool.false_eq_true, reduceIte,
      List.mem_cons] at hc
    rcases hc with h | h
    · right; exact h
    · rcases ih c h with h' | h'
      · left; exact List.mem_cons_of_mem a h'
      · right; exact h'
  | case6 a d rest h1 ih =>
    intro c hc
    simp only [collapseWs, h1, Bool.false_eq_true, reduceIte, List.mem_cons] at hc
    rcases hc with h | h
    · left; simp [h]
    · rcases ih c h with h' | h'
      · left; exact List.mem_cons_of_mem a h'
      · right; exact h'

/-- Boolean normal-form test for the collapsing pass: no whitespace
character other than a plain space, and no two adjacent whitespace
characters. -/
def isCollapsed : List Char → Bool
  | [] => true
  | [c] => !jsWs c || c = ' '
  | c :: d :: rest => (!jsWs c || (c = ' ' && !jsWs d)) && isCollapsed (d :: rest)

lemma isCollapsed_collapseWs (l : List Char) : isCollapsed (collapseWs l) = true := by
  induction l using collapseWs.induct with
  | case1 => rfl
  | case2 a hw => simp [collapseWs, hw, isCollapsed]
  | case3 a hw => simp [collapseWs, hw, isCollapsed]
  | case4 a d rest h1 h2 ih => simpa [collapseWs, h1, h2] using ih
  | case5 a d rest h1 h2 ih =>
    have hd : collapseWs (d :: rest) = d :: collapseWs rest :=
      collapse_cons_not_ws d rest (by simpa using h2)
    simp only [collapseWs, h1, h2, if_true, Bool.false_eq_true, reduceIte]
    rw [hd] at ih ⊢
    simp [isCollapsed, h2] at ih ⊢
    exact ih
  | case6 a d rest h1 ih =>
    simp only [collapseWs, h1, Bool.false_eq_true, reduceIte]
    cases hX : collapseWs (d :: rest) with
    | nil => simp [isCollapsed, h1]
    | cons x xs =>
      rw [hX] at ih
      simp [isCollapsed, h1]
      exact ih

lemma collapseWs_eq_self (l : List Char) (h : isCollapsed l = true) :
    collapseWs l = l := by
  induction l using collapseWs.induct with
  | case1 => rfl
  | case2 a hw =>
    simp [isCollapsed, hw] at h
    simp [collapseWs, hw, h]
  | case3 a hw => simp [collapseWs, hw]
  | case4 a d rest h1 h2 ih =>
    exfalso
    simp [isCollapsed, h1, h2] at h
  | case5 a d rest h1 h2 ih =>
    simp [isCollapsed, h1, h2] at h
    obtain ⟨ha, hrest⟩ := h
    simp [collapseWs, h1, h2, ha, ih hrest]
  | case6 a d rest h1 ih =>
    simp [isCollapsed, h1] at h
    simp [collapseWs, h1, ih h]

lemma collapse_idem (l : List Char) : collapseWs (collapseWs l) = collapseWs l :=
  collapseWs_eq_self _ (isCollapsed_collapseWs l)

lemma collapse_map_lower (l : List Char) :
    collapseWs (lowerL l) = lowerL (collapseWs l) := by
  induction l using collapseWs.induct with
  | case1 => rfl
  | case2 a hw =>
    simp [lowerL, collapseWs, jsWs_lowerChar, hw]
    decide
  | case3 a hw => simp [lowerL, collapseWs, jsWs_lowerChar, hw]
  | case4 a d rest h1 h2 ih =>
    simpa [lowerL, collapseWs, jsWs_lowerChar, h1, h2] using ih
  | case5 a d rest h1 h2 ih =>
    simp only [lowerL, List.map_cons] at ih ⊢
    simp [collapseWs, jsWs_lowerChar, h1, h2] at ih ⊢
    constructor
    · decide
    · exact ih
  | case6 a d rest h1 ih =>
    simp only [lowerL, List.map_cons] at ih ⊢
    simp [collapseWs, jsWs_lowerChar, h1] at ih ⊢
    exact ih

lemma dropWhile_eq_self_of_head (p : Char → Bool) (l : List Char)
    (h : ∀ c, l.head? = some c → p c = false) : l.dropWhile p = l := by
  cases l with
  | nil => rfl
  | cons a t =>
    rw [List.dropWhile_cons, if_neg]
    simp [h a rfl]

lemma dropWhile_head_false (p : Char → Bool) (l : List Char) :
    ∀ c, (l.dropWhile p).head? = some c → p c = false := by
  induction l with
  | nil => intro c hc; simp at hc
  | cons a t ih =>
    intro c hc
    rw [List.dropWhile_cons] at hc
    by_cases hp : p a = true
    · exact ih c (by simpa [hp] using hc)
    · simp [hp] at hc
      subst hc
      simpa using hp

lemma trimL_head (l : List Char) :
    ∀ c, (trimL l).head? = some c → jsWs c = false := by
  intro c hc
  unfold trimL at hc
  rw [List.head?_reverse] at hc
  rcases List.eq_nil_or_concat ((l.dropWhile jsWs).reverse.dropWhile jsWs) with he | ⟨L, b, he⟩
  · rw [he] at hc
    simp at hc
  · have hbc : b = c := by
      rw [he] at hc
      simpa [List.concat_eq_append, List.getLast?_concat] using hc
    -- the last element of the dropWhile output is the last of its
    -- argument, i.e. the head of l.dropWhile jsWs
    obtain ⟨pre, hpre⟩ : ((l.dropWhile jsWs).reverse.dropWhile jsWs) <:+
        (l.dropWhile jsWs).reverse := List.dropWhile_suffix jsWs
    have hlast : (l.dropWhile jsWs).reverse.getLast? = some b := by
      rw [← hpre, he]
      simp [List.concat_eq_append, ← List.append_assoc]
    rw [List.getLast?_eq_head?_reverse, List.reverse_reverse] at hlast
    rw [← hbc]
    exact dropWhile_head_false jsWs l b hlast

lemma trimL_getLast (l : List Char) :
    ∀ c, (trimL l).getLast? = some c → jsWs c = false := by
  intro c hc
  unfold trimL at hc
  rw [List.getLast?_eq_head?_reverse, List.reverse_reverse] at hc
  exact dropWhile_head_false jsWs _ c hc

lemma trimL_eq_self (l : List Char)
    (hh : ∀ c, l.head? = some c → jsWs c = false)
    (hl : ∀ c, l.getLast? = some c → jsWs c = false) : trimL l = l := by
  unfold trimL
  rw [dropWhile_eq_self_of_head jsWs l hh]
  rw [dropWhile_eq_self_of_head jsWs l.reverse
    (by intro c h; rw [List.head?_reverse] at h; exact hl c h)]
  exact List.reverse_reverse l

lemma trimL_idem (l : List Char) : trimL (trimL l) = trimL l :=
  trimL_eq_self (trimL l) (trimL_head l) (trimL_getLast l)

lemma jsTrimStr_idem (s : String) : jsTrimStr (jsTrimStr s) = jsTrimStr s := by
  unfold jsTrimStr
  rw [show (String.mk (trimL s.toList)).toList = trimL s.toList from rfl, trimL_idem]

/-- The validator's grammar layer in spec form: `isValidCron` of the
trimmed response holds exactly when the whitespace split of the trimmed
response has exactly five fields, each matching its field pattern. -/
lemma isValidCron_iff (s : String) :
    isValidCron (jsTrimStr s) = true ↔
      ∃ m h d mo dw, jsSplitWs (jsTrimStr s) = [m, h, d, mo, dw] ∧
        minutePat m = true ∧ hourPat h = true ∧ dayPat d = true ∧
        monthPat mo = true ∧ dowPat dw = true := by
  unfold isValidCron
  rw [jsTrimStr_idem]
  constructor
  · intro hv
    split at hv
    · next m h d mo dw heq =>
      simp only [Bool.and_eq_true] at hv
      exact ⟨m, h, d, mo, dw, heq, hv.1.1.1.1, hv.1.1.1.2, hv.1.1.2, hv.1.2, hv.2⟩
    · exact Bool.noConfusion hv
  · rintro ⟨m, h, d, mo, dw, heq, h1, h2, h3, h4, h5⟩
    rw [heq]
    simp [h1, h2, h3, h4, h5]

lemma mem_trimL (l : List Char) : ∀ c ∈ trimL l, c ∈ l := by
  intro c hc
  unfold trimL at hc
  rw [List.mem_reverse] at hc
  have h1 := (List.dropWhile_sublist jsWs).subset hc
  rw [List.mem_reverse] at h1
  exact (List.dropWhile_sublist jsWs).subset h1

lemma lowerChar_keep (d : Char) (hd : 32 ≤ d.toNat ∧ d.toNat ≠ 127) :
    32 ≤ (lowerChar d).toNat ∧ (lowerChar d).toNat ≠ 127 := by
  by_cases h65 : 65 ≤ d.toNat ∧ d.toNat ≤ 90
  · have := lowerChar_toNat d h65
    omega
  · rw [lowerChar_eq_self d h65]
    exact hd

lemma keepChar_mem_processed (l : List Char)
    (h : ∀ c ∈ l, 32 ≤ c.toNat ∧ c.toNat ≠ 127) :
    ∀ c ∈ collapseWs (lowerL (trimL l)), 32 ≤ c.toNat ∧ c.toNat ≠ 127 := by
  intro c hc
  rcases mem_collapseWs _ c hc with hm | hsp
  · obtain ⟨d, hd, rfl⟩ := List.mem_map.1 hm
    exact lowerChar_keep d (h d (mem_trimL l d hd))
  · subst hsp
    exact ⟨by decide, by decide⟩

lemma processInputL_eq (l : List Char)
    (h : ∀ c ∈ l, 32 ≤ c.toNat ∧ c.toNat ≠ 127) :
    processInputL l = collapseWs (lowerL (trimL l)) := by
  unfold processInputL
  apply List.filter_eq_self.mpr
  intro a ha
  have hk := keepChar_mem_processed l h a ha
  simp only [Bool.and_eq_true, decide_eq_true_eq]
  exact hk

lemma headNotWs_lowerL_trimL (l : List Char) :
    ∀ c, (lowerL (trimL l)).head? = some c → jsWs c = false := by
  intro c hc
  rw [lowerL, List.head?_map] at hc
  cases ht : (trimL l).head? with
  | none => rw [ht] at hc; simp at hc
  | some d =>
    rw [ht] at hc
    have hc2 : lowerChar d = c := by simpa using hc
    rw [← hc2, jsWs_lowerChar]
    exact trimL_head l d ht

lemma lastNotWs_lowerL_trimL (l : List Char) :
    ∀ c, (lowerL (trimL l)).getLast? = some c → jsWs c = false := by
  intro c hc
  rw [List.getLast?_eq_head?_reverse, lowerL, ← List.map_reverse,
    List.head?_map] at hc
  cases ht : (trimL l).reverse.head? with
  | none => rw [ht] at hc; simp at hc
  | some d =>
    rw [ht] at hc
    have hc2 : lowerChar d = c := by simpa using hc
    rw [← hc2, jsWs_lowerChar]
    apply trimL_getLast l d
    rw [List.getLast?_eq_head?_reverse]
    exact ht

lemma collapse_head_notWs (x : List Char)
    (hx : ∀ c, x.head? = some c → jsWs c = false) :
    ∀ c, (collapseWs x).head? = some c → jsWs c = false := by
  cases x with
  | nil => intro c hc; simp [collapseWs] at hc
  | cons a t =>
    intro c hc
    have ha : jsWs a = false := hx a rfl
    rw [collapse_cons_not_ws a t ha] at hc
    simp only [List.head?_cons] at hc
    injection hc with hc
    rw [← hc]
    exact ha

lemma collapse_last_notWs (x : List Char)
    (hx : ∀ c, x.getLast? = some c → jsWs c = false) :
    ∀ c, (collapseWs x).getLast? = some c → jsWs c = false := by
  rcases List.eq_nil_or_concat x with rfl | ⟨L, b, rfl⟩
  · intro c hc
    simp [collapseWs] at hc
  · intro c hc
    have hb : jsWs b = false := hx b (by simp)
    rw [List.concat_eq_append, collapse_append_not_ws L b hb,
      List.getLast?_concat] at hc
    injection hc with hc
    rw [← hc]
    exact hb

end Kronilo

namespace Kronilo

/- ------------------------------------------------------------------
Claim theorems.
------------------------------------------------------------------ -/

/-- Provider behaviour exhibiting the C1 divergence: the primary's first
call succeeds at the transport level but returns the invalid,
prose-free output `"timeout"`; every later call returns a valid
expression. -/
def c1Script : Nat → CallOutcome := fun n =>
  match n with
  | 0 => .output "timeout"
  | _ => .output "0 15 * * *"

/-- C1: evaluation of the orchestrator at the failing input.  The first
primary attempt is a validation failure (not a transport failure), yet
because the thrown validation message echoes the output and so contains
the substring `"timeout"`, the code retries the primary (with the
250ms backoff and raised temperature) instead of falling through to the
backup: the run ends with `model = primary` and `attempts = 2`,
contradicting the claimed "never retry the primary on a validation
failure". -/
theorem c1_code_bug_eval :
    (validateApiResponse (jsTrimStr "timeout")).isValid = false ∧
    (runTranslate c1Script "every monday").usedModel = some PRIMARY_MODEL ∧
    (runTranslate c1Script "every monday").attempts = 2 ∧
    (runTranslate c1Script "every monday").delays = [250] ∧
    (runTranslate c1Script "every monday").calls =
      [⟨PRIMARY_MODEL, 0, 5000⟩, ⟨PRIMARY_MODEL, 1 / 10, 5000⟩] := by
  refine ⟨rfl, rfl, rfl, rfl, rfl⟩

/-- C2: once the daily counter that the admission check reads for the
current day has reached the configured limit, `checkRateLimit` denies
via the daily branch, whatever the caller's sliding-window state; and
when both the in-process cache and the stored record carry a different
day key, the daily counter reads as 0 for the new day. -/
theorem c2_daily_cap_and_reset (cfg : RateConfig) (now : Int) (today ip : String)
    (st : RateState) :
    (∀ u st1, getDailyUsageInternalE false today st = (.ok u, st1) →
      cfg.dailyLimit ≤ u.count →
      (checkRateLimitE false false cfg now today ip st).1 = .ok .deniedDaily) ∧
    ((∀ c, st.cachedDailyUsage = some c → c.date ≠ today) →
     (∀ d, st.kvDaily = some d → d.date ≠ today) →
     (getDailyUsageInternalE false today st).1 = .ok (⟨0, today, 0⟩ : DailyUsage)) := by
  constructor
  · intro u st1 h hcap
    unfold checkRateLimitE
    rw [h]
    simp [hcap]
  · intro hc hk
    unfold getDailyUsageInternalE dailyReadKv
    cases hcd : st.cachedDailyUsage with
    | some c =>
      have := hc c hcd
      simp [this]
      cases hkd : st.kvDaily with
      | some d => simp [hk d hkd]
      | none => simp
    | none =>
      simp
      cases hkd : st.kvDaily with
      | some d => simp [hk d hkd]
      | none => simp

/-- C2 witness: a state whose fresh in-process cache already counts 20
calls today is denied via the daily branch, and a state whose cache and
store both carry other days reads as 0. -/
theorem c2_witness :
    (checkRateLimitE false false burstRateConfig 0 "d" "i"
      ⟨fun _ => none, none, some ⟨20, "d", 0⟩⟩).1 = .ok .deniedDaily ∧
    (getDailyUsageInternalE false "Wed"
      ⟨fun _ => none, some ⟨7, "Tue", 0⟩, some ⟨5, "Mon", 3⟩⟩).1 =
      .ok (⟨0, "Wed", 0⟩ : DailyUsage) := by
  constructor
  · exact (c2_daily_cap_and_reset burstRateConfig 0 "d" "i"
      ⟨fun _ => none, none, some ⟨20, "d", 0⟩⟩).1 ⟨20, "d", 0⟩
      ⟨fun _ => none, none, some ⟨20, "d", 0⟩⟩ rfl (by decide)
  · exact (c2_daily_cap_and_reset burstRateConfig 0 "Wed" "i"
      ⟨fun _ => none, some ⟨7, "Tue", 0⟩, some ⟨5, "Mon", 3⟩⟩).2
      (by intro c hc; cases hc; decide)
      (by intro d hd; cases hd; decide)

/-- C9 counterexample: reading the daily usage from a state with a cold
cache mutates quota-tracker state (it refreshes the module-level
`cachedDailyUsage`), so the usage-reporting operation is not free of
mutation as claimed. -/
theorem c9_counterexample :
    (getDailyUsageE burstRateConfig false "d"
      ⟨fun _ => none, none, none⟩).2.cachedDailyUsage ≠
      (RateState.mk (fun _ => none) none none).cachedDailyUsage := by
  decide

/-- C9 amended: `getDailyUsage` never writes the persistent quota store
(both the per-caller timestamp store and the stored daily record are
unchanged) and returns the `{count, date, remaining}` snapshot of the
pure daily read; only the in-process cache may be refreshed. -/
theorem c9_amended_frame (cfg : RateConfig) (today : String) (st : RateState) :
    (getDailyUsageE cfg false today st).2.kvUser = st.kvUser ∧
    (getDailyUsageE cfg false today st).2.kvDaily = st.kvDaily ∧
    (∀ u st', getDailyUsageInternalE false today st = (.ok u, st') →
      (getDailyUsageE cfg false today st).1 =
        .ok ⟨u.count, u.date, (cfg.dailyLimit : Int) - (u.count : Int)⟩) := by
  obtain ⟨u, st', h⟩ := dailyRead_noFault today st
  have hf := dailyRead_frame false today st
  refine ⟨?_, ?_, ?_⟩
  · unfold getDailyUsageE
    rw [h]
    rw [h] at hf
    exact hf.1
  · unfold getDailyUsageE
    rw [h]
    rw [h] at hf
    exact hf.2
  · intro u2 st2 h2
    rw [h] at h2
    injection h2 with h2a h2b
    injection h2a with h2a
    subst h2a
    unfold getDailyUsageE
    rw [h]

/-- C9 witness: the snapshot read from a fresh in-process cache holding
3 calls reports count 3 and remaining 17. -/
theorem c9_amended_witness :
    (getDailyUsageE burstRateConfig false "d"
      ⟨fun _ => none, none, some ⟨3, "d", 5⟩⟩).1 =
      .ok ⟨3, "d", (20 : Int) - (3 : Nat)⟩ :=
  (c9_amended_frame burstRateConfig "d" ⟨fun _ => none, none, some ⟨3, "d", 5⟩⟩).2.2
    ⟨3, "d", 5⟩ ⟨fun _ => none, none, some ⟨3, "d", 5⟩⟩ rfl

/-- C10: with the burst-protected revision's constants
(`RATE_LIMIT_MAX = 2`, `BURST_LIMIT = 2`) the burst branch of
`checkRateLimit` is unreachable: the sliding-window check runs first and
already denies any state in which the burst count could reach the burst
cap, so no request is ever denied via the burst branch. -/
theorem c10_burst_branch_unreachable (now : Int) (today ip : String) (st : RateState) :
    (checkRateLimitE false false burstRateConfig now today ip st).1 ≠
      .ok .deniedBurst := by
  obtain ⟨u, st1, h⟩ := dailyRead_noFault today st
  unfold checkRateLimitE
  rw [h]
  by_cases hd : burstRateConfig.dailyLimit ≤ u.count
  · simp [hd]
  · simp only [hd, if_false, Bool.false_eq_true, reduceIte]
    set ts := ((st1.kvUser ip).getD []).filter (fun x => now - x < burstRateConfig.window) with hts
    by_cases hw : burstRateConfig.max ≤ ts.length
    · simp [hw]
    · have hb : ¬ (burstRateConfig.burstLimit ≤
          (ts.filter (fun x => now - x < burstRateConfig.burstWindow)).length) := by
        have h1 := List.length_filter_le
          (fun x => decide (now - x < burstRateConfig.burstWindow)) ts
        have hm2 : burstRateConfig.max = 2 := rfl
        have hb2 : burstRateConfig.burstLimit = 2 := rfl
        rw [hm2] at hw
        rw [hb2]
        omega
      simp only [hw, reduceIte, hb]
      obtain ⟨st3, h3⟩ := updateDaily_noFault
        { u with count := u.count + 1 } now
        { st1 with kvUser := fun k => if k = ip then some (ts ++ [now]) else st1.kvUser k }
      simp [h3]

/-- C10 witness: a concrete call of the admission check that, per the
unreachability theorem, is not denied via the burst branch. -/
theorem c10_witness :
    (checkRateLimitE false false burstRateConfig 0 "d" "i"
      ⟨fun _ => none, none, none⟩).1 ≠ .ok .deniedBurst :=
  c10_burst_branch_unreachable 0 "d" "i" ⟨fun _ => none, none, none⟩

/-- Shape of a fault-free debounced daily write: it always succeeds,
refreshes the in-process cache, and leaves the per-caller store alone. -/
lemma updateDaily_shape (u : DailyUsage) (now : Int) (st : RateState) :
    ∃ st3, updateDailyUsage false u now st = (.ok (), st3) ∧
      st3.cachedDailyUsage = some { u with lastWrite := now } ∧
      st3.kvUser = st.kvUser := by
  unfold updateDailyUsage
  dsimp only
  split
  · exact ⟨_, rfl, rfl, rfl⟩
  · exact ⟨_, rfl, rfl, rfl⟩

/-- Shape of one admitted call of `checkRateLimit` from a state whose
in-process daily cache is fresh: the call is allowed, the daily counter
is bumped, and the caller's pruned timestamp list gains the current
time. -/
lemma checkRL_fresh_allowed (cfg : RateConfig) (now : Int) (today ip : String)
    (st : RateState) (c : Nat) (lw : Int)
    (hc : st.cachedDailyUsage = some ⟨c, today, lw⟩)
    (hdl : c < cfg.dailyLimit)
    (hwin : (((st.kvUser ip).getD []).filter (fun ts => now - ts < cfg.window)).length < cfg.max)
    (hburst : ((((st.kvUser ip).getD []).filter (fun ts => now - ts < cfg.window)).filter
        (fun ts => now - ts < cfg.burstWindow)).length < cfg.burstLimit) :
    (checkRateLimitE false false cfg now today ip st).1 = .ok .allowed ∧
    (checkRateLimitE false false cfg now today ip st).2.cachedDailyUsage =
      some ⟨c + 1, today, now⟩ ∧
    (checkRateLimitE false false cfg now today ip st).2.kvUser ip =
      some ((((st.kvUser ip).getD []).filter (fun ts => now - ts < cfg.window)) ++ [now]) := by
  have hdaily : getDailyUsageInternalE false today st = (.ok ⟨c, today, lw⟩, st) := by
    unfold getDailyUsageInternalE
    rw [hc]
    simp
  unfold checkRateLimitE
  rw [hdaily]
  dsimp only
  rw [if_neg (by omega : ¬ cfg.dailyLimit ≤ c)]
  simp only [Bool.false_eq_true, reduceIte]
  rw [if_neg (by omega :
    ¬ cfg.max ≤ (((st.kvUser ip).getD []).filter (fun ts => now - ts < cfg.window)).length)]
  rw [if_neg (by omega :
    ¬ cfg.burstLimit ≤ ((((st.kvUser ip).getD []).filter
      (fun ts => now - ts < cfg.window)).filter
        (fun ts => now - ts < cfg.burstWindow)).length)]
  obtain ⟨st3, hupd, hcache, hkv⟩ := updateDaily_shape _ now _
  rw [hupd]
  dsimp only
  refine ⟨rfl, ?_, ?_⟩
  · exact hcache
  · rw [hkv]
    simp

/-- Shape of one window-denied call of `checkRateLimit` from a state
whose in-process daily cache is fresh: the call is denied by the
sliding-window branch and the state is unchanged. -/
lemma checkRL_fresh_deniedWindow (cfg : RateConfig) (now : Int) (today ip : String)
    (st : RateState) (c : Nat) (lw : Int)
    (hc : st.cachedDailyUsage = some ⟨c, today, lw⟩)
    (hdl : c < cfg.dailyLimit)
    (hwin : cfg.max ≤
      (((st.kvUser ip).getD []).filter (fun ts => now - ts < cfg.window)).length) :
    (checkRateLimitE false false cfg now today ip st).1 = .ok .deniedWindow ∧
    (checkRateLimitE false false cfg now today ip st).2 = st := by
  have hdaily : getDailyUsageInternalE false today st = (.ok ⟨c, today, lw⟩, st) := by
    unfold getDailyUsageInternalE
    rw [hc]
    simp
  unfold checkRateLimitE
  rw [hdaily]
  dsimp only
  rw [if_neg (by omega : ¬ cfg.dailyLimit ≤ c)]
  simp only [Bool.false_eq_true, reduceIte]
  rw [if_pos hwin]
  exact ⟨rfl, rfl⟩

/-- Empty quota state for the C3 run. -/
def c3St0 : RateState := ⟨fun _ => none, none, none⟩

/-- State after a first admission at time 0. -/
def c3St1 : RateState :=
  (checkRateLimitE false false hourlyRateConfig 0 "d" "ip" c3St0).2

/-- State after a second admission at time 1. -/
def c3St2 : RateState :=
  (checkRateLimitE false false hourlyRateConfig 1 "d" "ip" c3St1).2

/-- C3 counterexample: with `perCallerMax = 3`, `window = 1h` the claim
promises that three admissions within the window succeed, but the burst
sub-window (2 per 60s) that the cited `checkRateLimit` also applies
denies the third of three back-to-back admissions (times 0ms, 1ms,
2ms), so the claim fails as stated for tightly spaced requests. -/
theorem c3_counterexample :
    (checkRateLimitE false false hourlyRateConfig 0 "d" "ip" c3St0).1 = .ok .allowed ∧
    (checkRateLimitE false false hourlyRateConfig 1 "d" "ip" c3St1).1 = .ok .allowed ∧
    (checkRateLimitE false false hourlyRateConfig 2 "d" "ip" c3St2).1 = .ok .deniedBurst := by
  exact ⟨rfl, rfl, rfl⟩

/-- C3 amended: with `perCallerMax = 3`, `window = 1h` and a fresh
caller, three admissions within the window succeed provided the third
arrives at least the 60s burst sub-window after the first (so the
burst cap of 2 per 60s, which `checkRateLimit` checks after the
window, is not hit); a fourth admission within the window is denied by
the per-caller sliding-window branch; and once all stored timestamps
are older than the window, admission succeeds again. -/
theorem c3_amended_sliding_window (ip today : String)
    (f : String → Option (List Int)) (c0 : Nat) (lw t1 t2 t3 t4 t5 : Int)
    (st1 st2 st3 st4 : RateState)
    (hf : f ip = none)
    (hc4 : c0 + 4 ≤ 50)
    (h12 : t1 ≤ t2) (h23 : t2 ≤ t3) (h34 : t3 ≤ t4)
    (hwin : t4 - t1 < 3600000)
    (hbgap : 60000 ≤ t3 - t1)
    (helapse : 3600000 ≤ t5 - t3)
    (hst1 : st1 = (checkRateLimitE false false hourlyRateConfig t1 today ip
      ⟨f, none, some ⟨c0, today, lw⟩⟩).2)
    (hst2 : st2 = (checkRateLimitE false false hourlyRateConfig t2 today ip st1).2)
    (hst3 : st3 = (checkRateLimitE false false hourlyRateConfig t3 today ip st2).2)
    (hst4 : st4 = (checkRateLimitE false false hourlyRateConfig t4 today ip st3).2) :
    (checkRateLimitE false false hourlyRateConfig t1 today ip
      ⟨f, none, some ⟨c0, today, lw⟩⟩).1 = .ok .allowed ∧
    (checkRateLimitE false false hourlyRateConfig t2 today ip st1).1 = .ok .allowed ∧
    (checkRateLimitE false false hourlyRateConfig t3 today ip st2).1 = .ok .allowed ∧
    (checkRateLimitE false false hourlyRateConfig t4 today ip st3).1 = .ok .deniedWindow ∧
    (checkRateLimitE false false hourlyRateConfig t5 today ip st4).1 = .ok .allowed := by
  have hDL : hourlyRateConfig.dailyLimit = 50 := rfl
  have hMX : hourlyRateConfig.max = 3 := rfl
  have hWD : hourlyRateConfig.window = 3600000 := rfl
  have hBW : hourlyRateConfig.burstWindow = 60000 := rfl
  have hBL : hourlyRateConfig.burstLimit = 2 := rfl
  set st0 : RateState := ⟨f, none, some ⟨c0, today, lw⟩⟩ with hst0
  -- step 1
  have hkv0 : (st0.kvUser ip).getD [] = ([] : List Int) := by
    rw [hst0]
    show (f ip).getD [] = []
    rw [hf]
    rfl
  have s1 := checkRL_fresh_allowed hourlyRateConfig t1 today ip st0 c0 lw
    (by rw [hst0]) (by rw [hDL]; omega)
    (by rw [hkv0, hMX]; simp)
    (by rw [hkv0, hBL]; simp)
  obtain ⟨s1r, s1c, s1k⟩ := s1
  have s1k2 : st1.kvUser ip = some [t1] := by
    rw [← hst1] at s1k
    rw [s1k, hkv0]
    rfl
  rw [← hst1] at s1c
  -- step 2
  have hfil2 : ((st1.kvUser ip).getD []).filter
      (fun ts => t2 - ts < hourlyRateConfig.window) = [t1] := by
    rw [s1k2, hWD]
    have hc1 : t2 - t1 < (3600000 : Int) := by omega
    simp [List.filter_cons, hc1]
  have s2 := checkRL_fresh_allowed hourlyRateConfig t2 today ip st1 (c0 + 1) t1 s1c
    (by rw [hDL]; omega)
    (by rw [hfil2, hMX]; simp)
    (by
      rw [hfil2, hBL]
      have h := List.length_filter_le
        (fun ts => decide (t2 - ts < hourlyRateConfig.burstWindow)) [t1]
      simp at h ⊢
      omega)
  obtain ⟨s2r, s2c, s2k⟩ := s2
  have s2k2 : st2.kvUser ip = some [t1, t2] := by
    rw [← hst2] at s2k
    rw [s2k, hfil2]
    rfl
  rw [← hst2] at s2c
  -- step 3
  have hfil3 : ((st2.kvUser ip).getD []).filter
      (fun ts => t3 - ts < hourlyRateConfig.window) = [t1, t2] := by
    rw [s2k2, hWD]
    have hc1 : t3 - t1 < (3600000 : Int) := by omega
    have hc2 : t3 - t2 < (3600000 : Int) := by omega
    simp [List.filter_cons, hc1, hc2]
  have s3 := checkRL_fresh_allowed hourlyRateConfig t3 today ip st2 (c0 + 2) t2 s2c
    (by rw [hDL]; omega)
    (by rw [hfil3, hMX]; simp)
    (by
      rw [hfil3, hBW, hBL]
      have hb1 : ¬(t3 - t1 < (60000 : Int)) := by omega
      have h := List.length_filter_le
        (fun ts => decide (t3 - ts < (60000 : Int))) [t2]
      simp [List.filter_cons, hb1] at h ⊢
      omega)
  obtain ⟨s3r, s3c, s3k⟩ := s3
  have s3k2 : st3.kvUser ip = some [t1, t2, t3] := by
    rw [← hst3] at s3k
    rw [s3k, hfil3]
    rfl
  rw [← hst3] at s3c
  -- step 4: denied by the window
  have hfil4 : ((st3.kvUser ip).getD []).filter
      (fun ts => t4 - ts < hourlyRateConfig.window) = [t1, t2, t3] := by
    rw [s3k2, hWD]
    have hc1 : t4 - t1 < (3600000 : Int) := by omega
    have hc2 : t4 - t2 < (3600000 : Int) := by omega
    have hc3 : t4 - t3 < (3600000 : Int) := by omega
    simp [List.filter_cons, hc1, hc2, hc3]
  have s4 := checkRL_fresh_deniedWindow hourlyRateConfig t4 today ip st3 (c0 + 3) t3 s3c
    (by rw [hDL]; omega)
    (by rw [hfil4, hMX]; simp)
  have s4e : st4 = st3 := by
    rw [hst4, s4.2]
  -- step 5: the window has elapsed
  have hfil5 : ((st4.kvUser ip).getD []).filter
      (fun ts => t5 - ts < hourlyRateConfig.window) = ([] : List Int) := by
    rw [s4e, s3k2, hWD]
    have hc1 : ¬(t5 - t1 < (3600000 : Int)) := by omega
    have hc2 : ¬(t5 - t2 < (3600000 : Int)) := by omega
    have hc3 : ¬(t5 - t3 < (3600000 : Int)) := by omega
    simp [List.filter_cons, hc1, hc2, hc3]
  have s5 := checkRL_fresh_allowed hourlyRateConfig t5 today ip st4 (c0 + 3) t3
    (by rw [s4e]; exact s3c)
    (by rw [hDL]; omega)
    (by rw [hfil5, hMX]; simp)
    (by rw [hfil5, hBL]; simp)
  exact ⟨s1r, s2r, s3r, s4.1, s5.1⟩

/-- States of the C3 witness run (admissions at 0s, 70s, 140s; denial
at 150s; admission again at 2h). -/
def c3wSt1 : RateState :=
  (checkRateLimitE false false hourlyRateConfig 0 "d" "ip"
    ⟨fun _ => none, none, some ⟨0, "d", 0⟩⟩).2

/-- State after the second witness admission. -/
def c3wSt2 : RateState :=
  (checkRateLimitE false false hourlyRateConfig 70000 "d" "ip" c3wSt1).2

/-- State after the third witness admission. -/
def c3wSt3 : RateState :=
  (checkRateLimitE false false hourlyRateConfig 140000 "d" "ip" c3wSt2).2

/-- State after the denied fourth witness request. -/
def c3wSt4 : RateState :=
  (checkRateLimitE false false hourlyRateConfig 150000 "d" "ip" c3wSt3).2

/-- C3 witness: the amended scenario at concrete times 0s, 70s, 140s,
150s (denied) and 2h (allowed again) for a fresh caller. -/
theorem c3_amended_witness :
    (checkRateLimitE false false hourlyRateConfig 0 "d" "ip"
      ⟨fun _ => none, none, some ⟨0, "d", 0⟩⟩).1 = .ok .allowed ∧
    (checkRateLimitE false false hourlyRateConfig 150000 "d" "ip" c3wSt3).1 =
      .ok .deniedWindow := by
  have h := c3_amended_sliding_window "ip" "d" (fun _ => none) 0 0 0 70000 140000 150000
    7200000 c3wSt1 c3wSt2 c3wSt3 c3wSt4 rfl (by omega) (by omega) (by omega) (by omega)
    (by omega) (by omega) (by omega) rfl rfl rfl rfl
  exact ⟨h.1, h.2.2.2.1⟩

/-- Decimal value of an all-digit token (`none` for anything that is
not a nonempty digit string). -/
def numeralVal (l : List Char) : Option Nat :=
  if l ≠ [] && l.all (·.isDigit) then
    some (l.foldl (fun a c => 10 * a + (c.toNat - 48)) 0)
  else none

/-- Day-of-month numeral as the claim words it: an integer bounded to
the claimed legal range 1–31. -/
def claimDayNum (t : String) : Bool :=
  match numeralVal t.toList with
  | some v => 1 ≤ v && v ≤ 31
  | none => false

/-- Day-of-month field grammar as the claim words it: `*`, bare
integer, comma list, dash range or step, with numerals bounded to
1–31. -/
def claimDayField : String → Bool := fieldPat claimDayNum claimDayNum

/-- C4 counterexample: the validator accepts `"0 15 0 * *"`, whose
day-of-month field is the bare integer 0 — outside the claimed 1–31
bound (the implemented pattern `[12]?\d|3[01]` also matches the single
digit 0) — so acceptance is not equivalent to the claimed grammar. -/
theorem c4_counterexample :
    (validateApiResponse "0 15 0 * *").isValid = true ∧
    jsSplitWs (jsTrimStr "0 15 0 * *") = ["0", "15", "0", "*", "*"] ∧
    claimDayField "0" = false := by
  exact ⟨rfl, by decide, by decide⟩

/-- C4 amended: the validator accepts a string exactly when its trimmed
form matches none of the four prose-rejection patterns and splits on
whitespace into exactly five fields, each matching its implemented
field pattern — whose numeric bounds are minute 0–59, hour 0–23,
day-of-month 0–31 (a bare 0 is accepted by the implemented pattern),
month 1–12, day-of-week 0–6; and the spec's four examples behave as
stated. -/
theorem c4_amended_validator :
    (∀ s : String,
      (validateApiResponse s).isValid = true ↔
        (proseLeadIn (jsTrimStr s).toList = false ∧
         startsFence (jsTrimStr s).toList = false ∧
         hasVocab (jsTrimStr s).toList = false ∧
         hasNewline (jsTrimStr s).toList = false ∧
         ∃ m h d mo dw, jsSplitWs (jsTrimStr s) = [m, h, d, mo, dw] ∧
           minutePat m = true ∧ hourPat h = true ∧ dayPat d = true ∧
           monthPat mo = true ∧ dowPat dw = true)) ∧
    (validateApiResponse "0 15 * * *").isValid = true ∧
    (validateApiResponse "here is your cron: 0 15 * * *").isValid = false ∧
    (validateApiResponse "0 15 * *").isValid = false ∧
    (validateApiResponse "60 15 * * *").isValid = false := by
  refine ⟨?_, rfl, rfl, rfl, rfl⟩
  intro s
  by_cases hs : s = ""
  · subst hs
    constructor
    · intro h1
      exact absurd h1 (by decide)
    · rintro ⟨-, -, -, -, m, h2, d3, mo, dw, heq, -⟩
      have hsplit : jsSplitWs (jsTrimStr "") = [""] := by decide
      rw [hsplit] at heq
      simp at heq
  · unfold validateApiResponse
    rw [if_neg hs]
    by_cases hp : (proseLeadIn (jsTrimStr s).toList || startsFence (jsTrimStr s).toList
        || hasVocab (jsTrimStr s).toList || hasNewline (jsTrimStr s).toList) = true
    · rw [if_pos hp]
      constructor
      · intro hcontra
        exact Bool.noConfusion hcontra
      · rintro ⟨hp1, hp2, hp3, hp4, -⟩
        rw [hp1, hp2, hp3, hp4] at hp
        simp at hp
    · rw [if_neg hp]
      simp only [Bool.or_eq_true, not_or, Bool.not_eq_true] at hp
      obtain ⟨⟨⟨hp1, hp2⟩, hp3⟩, hp4⟩ := hp
      by_cases hv : isValidCron (jsTrimStr s) = true
      · rw [hv]
        simp only [Bool.not_true, Bool.false_eq_true, reduceIte]
        constructor
        · intro _
          exact ⟨hp1, hp2, hp3, hp4, (isValidCron_iff s).1 hv⟩
        · intro _
          trivial
      · have hv2 : isValidCron (jsTrimStr s) = false := by
          revert hv
          cases isValidCron (jsTrimStr s) <;> simp
        rw [hv2]
        simp only [Bool.not_false, reduceIte]
        constructor
        · intro hcontra
          exact Bool.noConfusion hcontra
        · rintro ⟨-, -, -, -, hex⟩
          have := (isValidCron_iff s).2 hex
          rw [hv2] at this
          exact Bool.noConfusion this

/-- C5 counterexample: `processInput` sanitizes control characters only
after trimming and collapsing, so for the input `"\x01 a"` the removal
of the leading control character exposes a leading space that a second
application then trims: `processInput` is not idempotent on all raw
inputs. -/
theorem c5_counterexample :
    processInput (processInput (String.mk [Char.ofNat 1, ' ', 'a'])) ≠
      processInput (String.mk [Char.ofNat 1, ' ', 'a']) := by
  decide

/-- C5 amended: `processInput` is idempotent on every raw input that is
free of the characters its sanitization pass deletes (code points below
0x20 and DEL); on such inputs the trim/lowercase/collapse prefix of the
pipeline reaches a fixed point and the final sanitization is the
identity.  (General inputs can break idempotence only through the
sanitization step, as `c5_counterexample` shows.) -/
theorem c5_amended_idempotent (s : String)
    (h : ∀ c ∈ s.toList, 32 ≤ c.toNat ∧ c.toNat ≠ 127) :
    processInput (processInput s) = processInput s := by
  unfold processInput
  have htl : (String.mk (processInputL s.toList)).toList = processInputL s.toList := rfl
  rw [htl]
  congr 1
  have hA : processInputL s.toList = collapseWs (lowerL (trimL s.toList)) :=
    processInputL_eq s.toList h
  rw [hA]
  have hhY := headNotWs_lowerL_trimL s.toList
  have hlY := lastNotWs_lowerL_trimL s.toList
  have hh := collapse_head_notWs _ hhY
  have hlast := collapse_last_notWs _ hlY
  have hB1 : trimL (collapseWs (lowerL (trimL s.toList))) =
      collapseWs (lowerL (trimL s.toList)) := trimL_eq_self _ hh hlast
  have hB2 : lowerL (collapseWs (lowerL (trimL s.toList))) =
      collapseWs (lowerL (trimL s.toList)) := by
    rw [← collapse_map_lower]
    rw [show lowerL (lowerL (trimL s.toList)) = lowerL (trimL s.toList) from
      lowerL_idem (trimL s.toList)]
  unfold processInputL
  rw [hB1]
  have hmap : (collapseWs (lowerL (trimL s.toList))).map lowerChar =
      collapseWs (lowerL (trimL s.toList)) := hB2
  rw [hmap, collapse_idem]
  apply List.filter_eq_self.mpr
  intro a ha
  have hk := keepChar_mem_processed s.toList h a ha
  simp only [Bool.and_eq_true, decide_eq_true_eq]
  exact hk

/-- C5 witness: a concrete control-character-free input on which the
amended idempotence theorem applies. -/
theorem c5_amended_witness :
    (∀ c ∈ ("Hello  World" : String).toList, 32 ≤ c.toNat ∧ c.toNat ≠ 127) ∧
    processInput (processInput "Hello  World") = processInput "Hello  World" :=
  ⟨by decide, c5_amended_idempotent "Hello  World" (by decide)⟩

/-- C8: with the API key configured, a request whose input normalizes
to more than 200 characters is answered
`413 {error: "Input too long (max 200 characters)"}`, and one whose
input normalizes to the empty string is answered
`400 {error: "Missing input field"}` (both before any quota, cache or
model work). -/
theorem c8_input_length_checks (w : World) (input k : String)
    (hk : w.apiKey = some k) :
    (200 < (normalizeFull input).length →
      (handleTranslate w input).status = 413 ∧
      (handleTranslate w input).body = .errMsg "Input too long (max 200 characters)") ∧
    (normalizeFull input = "" →
      (handleTranslate w input).status = 400 ∧
      (handleTranslate w input).body = .errMsg "Missing input field") := by
  unfold handleTranslate
  rw [hk]
  constructor
  · intro hlen
    rw [if_pos hlen]
    exact ⟨rfl, rfl⟩
  · intro hempty
    have hlen : ¬(200 < (normalizeFull input).length) := by
      rw [hempty]
      decide
    rw [if_neg hlen, if_pos hempty]
    exact ⟨rfl, rfl⟩

/-- Request environment for the C8 witness. -/
def c8World : World :=
  ⟨some "key", none, none, 0, "d", burstRateConfig,
   ⟨fun _ => none, none, none⟩, fun _ => none, false, false, false, false,
   fun _ => .output "0 15 * * *"⟩

set_option maxRecDepth 8192 in
/-- C8 witness: a 201-character input is answered 413 and an empty
input is answered 400. -/
theorem c8_witness :
    (handleTranslate c8World (String.mk (List.replicate 201 'a'))).status = 413 ∧
    (handleTranslate c8World "").status = 400 :=
  ⟨((c8_input_length_checks c8World (String.mk (List.replicate 201 'a')) "key" rfl).1
      (by decide)).1,
   ((c8_input_length_checks c8World "" "key" rfl).2 (by decide)).1⟩

/-- Cache-hit shape of the handler: with the key present, a normalized
input passing the length checks, an admitted request and no cache
fault, a stored parseable entry is returned verbatim with no model
call. -/
lemma handleTranslate_hit (w : World) (s k : String) (r : ApiSuccess)
    (hk : w.apiKey = some k)
    (hlen : ¬(200 < (normalizeFull s).length))
    (hne : ¬(normalizeFull s = ""))
    (hrl : (checkRateLimitE w.quotaGetFault w.quotaPutFault w.cfg w.now w.today
        (pickIp w.hdrCfIp w.hdrXff) w.rate).1 = .ok .allowed)
    (hmf : w.cacheMatchFault = false)
    (hhit : w.cacheStore (cacheKeyUrl CACHE_VERSION (normalizeFull s)) = some (.ok r)) :
    (handleTranslate w s).status = 200 ∧
    (handleTranslate w s).body = .ok r ∧
    (handleTranslate w s).modelCalls = 0 := by
  unfold handleTranslate
  rw [hk]
  dsimp only
  rw [if_neg hlen, if_neg hne]
  cases hr : checkRateLimitE w.quotaGetFault w.quotaPutFault w.cfg w.now w.today
      (pickIp w.hdrCfIp w.hdrXff) w.rate with
  | mk fst snd =>
    rw [hr] at hrl
    dsimp only at hrl
    subst hrl
    dsimp only
    rw [hmf]
    simp only [Bool.false_eq_true, reduceIte]
    rw [hhit]
    refine ⟨?_, ?_, ?_⟩ <;> simp

/-- Cache-miss shape of the handler when the orchestrator succeeds:
the fresh result is returned and, with no cache-write fault, stored
under the versioned key of the normalized input. -/
lemma handleTranslate_miss_success (w : World) (s k : String) (r : ApiSuccess)
    (hk : w.apiKey = some k)
    (hlen : ¬(200 < (normalizeFull s).length))
    (hne : ¬(normalizeFull s = ""))
    (hrl : (checkRateLimitE w.quotaGetFault w.quotaPutFault w.cfg w.now w.today
        (pickIp w.hdrCfIp w.hdrXff) w.rate).1 = .ok .allowed)
    (hmf : w.cacheMatchFault = false)
    (hmiss : w.cacheStore (cacheKeyUrl CACHE_VERSION (normalizeFull s)) = none)
    (hpf : w.cachePutFault = false)
    (hrun : (runTranslate w.script (normalizeFull s)).result = some r) :
    (handleTranslate w s).status = 200 ∧
    (handleTranslate w s).body = .ok r ∧
    (handleTranslate w s).cache (cacheKeyUrl CACHE_VERSION (normalizeFull s)) =
      some (.ok r) := by
  unfold handleTranslate
  rw [hk]
  dsimp only
  rw [if_neg hlen, if_neg hne]
  cases hr : checkRateLimitE w.quotaGetFault w.quotaPutFault w.cfg w.now w.today
      (pickIp w.hdrCfIp w.hdrXff) w.rate with
  | mk fst snd =>
    rw [hr] at hrl
    dsimp only at hrl
    subst hrl
    dsimp only
    rw [hmf]
    simp only [Bool.false_eq_true, reduceIte]
    rw [hmiss]
    dsimp only
    rw [hrun]
    dsimp only
    rw [hpf]
    simp only [Bool.false_eq_true, reduceIte]
    refine ⟨?_, ?_, ?_⟩ <;> simp

/-- C6: for two translate requests whose inputs normalize to the same
string under the fixed cache-version tag, if the first request is
admitted, misses the cache, succeeds at the orchestrator and stores its
result without fault, then a second admitted request served against the
resulting cache returns exactly the stored `TranslationResult` and
issues no model call at all. -/
theorem c6_cache_round_trip (w1 w2 : World) (s1 s2 k1 k2 : String) (r : ApiSuccess)
    (hk1 : w1.apiKey = some k1) (hk2 : w2.apiKey = some k2)
    (hnorm : normalizeFull s1 = normalizeFull s2)
    (hlen : ¬(200 < (normalizeFull s1).length)) (hne : ¬(normalizeFull s1 = ""))
    (hrl1 : (checkRateLimitE w1.quotaGetFault w1.quotaPutFault w1.cfg w1.now w1.today
        (pickIp w1.hdrCfIp w1.hdrXff) w1.rate).1 = .ok .allowed)
    (hmf1 : w1.cacheMatchFault = false)
    (hmiss : w1.cacheStore (cacheKeyUrl CACHE_VERSION (normalizeFull s1)) = none)
    (hpf1 : w1.cachePutFault = false)
    (hrun : (runTranslate w1.script (normalizeFull s1)).result = some r)
    (hcs2 : w2.cacheStore = (handleTranslate w1 s1).cache)
    (hrl2 : (checkRateLimitE w2.quotaGetFault w2.quotaPutFault w2.cfg w2.now w2.today
        (pickIp w2.hdrCfIp w2.hdrXff) w2.rate).1 = .ok .allowed)
    (hmf2 : w2.cacheMatchFault = false) :
    ((handleTranslate w1 s1).status = 200 ∧ (handleTranslate w1 s1).body = .ok r) ∧
    (handleTranslate w2 s2).status = 200 ∧
    (handleTranslate w2 s2).body = .ok r ∧
    (handleTranslate w2 s2).modelCalls = 0 := by
  have h1 := handleTranslate_miss_success w1 s1 k1 r hk1 hlen hne hrl1 hmf1 hmiss hpf1 hrun
  have hhit2 : w2.cacheStore (cacheKeyUrl CACHE_VERSION (normalizeFull s2)) =
      some (.ok r) := by
    rw [hcs2, ← hnorm]
    exact h1.2.2
  have hlen2 : ¬(200 < (normalizeFull s2).length) := by
    rw [← hnorm]
    exact hlen
  have hne2 : ¬(normalizeFull s2 = "") := by
    rw [← hnorm]
    exact hne
  have h2 := handleTranslate_hit w2 s2 k2 r hk2 hlen2 hne2 hrl2 hmf2 hhit2
  exact ⟨⟨h1.1, h1.2.1⟩, h2.1, h2.2.1, h2.2.2⟩

/-- First request environment for the C6 witness. -/
def c6World1 : World :=
  ⟨some "key", none, none, 0, "d", burstRateConfig,
   ⟨fun _ => none, none, none⟩, fun _ => none, false, false, false, false,
   fun _ => .output "0 15 * * *"⟩

/-- Second request environment for the C6 witness: the same caller and
day, served against the cache and quota state left by the first
request. -/
def c6World2 : World :=
  { c6World1 with
    cacheStore := (handleTranslate c6World1 "Every day at 3 PM").cache,
    rate := (handleTranslate c6World1 "Every day at 3 PM").rate }

/-- C6 witness: the second request, whose differently written input
normalizes to the same string, is answered from the cache with the
first request's result and zero model calls. -/
theorem c6_witness :
    (handleTranslate c6World2 "Every  DAY at 3 pm").status = 200 ∧
    (handleTranslate c6World2 "Every  DAY at 3 pm").body =
      .ok ⟨"0 15 * * *", PRIMARY_MODEL, "every day at 3 pm"⟩ ∧
    (handleTranslate c6World2 "Every  DAY at 3 pm").modelCalls = 0 :=
  (c6_cache_round_trip c6World1 c6World2 "Every day at 3 PM" "Every  DAY at 3 pm"
    "key" "key" ⟨"0 15 * * *", PRIMARY_MODEL, "every day at 3 pm"⟩
    rfl rfl rfl (by decide) (by decide) rfl rfl rfl rfl rfl rfl rfl rfl).2

/-- Fault-free request environment for the C7 counterexample. -/
def c7Ok : World :=
  ⟨some "key", none, none, 0, "d", burstRateConfig,
   ⟨fun _ => none, none, none⟩, fun _ => none, false, false, false, false,
   fun _ => .output "0 15 * * *"⟩

/-- The same environment with a quota-store read fault. -/
def c7Fault : World := { c7Ok with quotaGetFault := true }

/-- C7 amended: cache-store I/O errors never fail the request path —
a cache-write fault leaves the response (status and body) of every
request unchanged, and a cache-read fault makes the request behave
exactly as a cache miss (the response equals that of the same
environment with an empty cache).  Quota-store errors, by contrast,
propagate to the catch-all (see the counterexample). -/
theorem c7_amended_cache_faults (w : World) (s : String) :
    ((handleTranslate { w with cachePutFault := true } s).status =
       (handleTranslate { w with cachePutFault := false } s).status ∧
     (handleTranslate { w with cachePutFault := true } s).body =
       (handleTranslate { w with cachePutFault := false } s).body) ∧
    ((handleTranslate { w with cacheMatchFault := true } s).status =
       (handleTranslate { w with cacheMatchFault := false, cacheStore := (fun _ => none) } s).status ∧
     (handleTranslate { w with cacheMatchFault := true } s).body =
       (handleTranslate { w with cacheMatchFault := false, cacheStore := (fun _ => none) } s).body) := by
  constructor
  · unfold handleTranslate
    dsimp only
    cases w.apiKey with
    | none => exact ⟨rfl, rfl⟩
    | some k =>
      dsimp only
      by_cases h1 : 200 < (normalizeFull s).length
      · rw [if_pos h1, if_pos h1]
        exact ⟨rfl, rfl⟩
      · rw [if_neg h1, if_neg h1]
        by_cases h2 : normalizeFull s = ""
        · rw [if_pos h2, if_pos h2]
          exact ⟨rfl, rfl⟩
        · rw [if_neg h2, if_neg h2]
          cases hr : checkRateLimitE w.quotaGetFault w.quotaPutFault w.cfg w.now
              w.today (pickIp w.hdrCfIp w.hdrXff) w.rate with
          | mk fst snd =>
            cases fst with
            | error e => exact ⟨rfl, rfl⟩
            | ok rr =>
              cases rr with
              | allowed =>
                dsimp only
                cases hm : w.cacheMatchFault with
                | true =>
                  cases ho : (runTranslate w.script (normalizeFull s)).result with
                  | none => exact ⟨rfl, rfl⟩
                  | some r => exact ⟨rfl, rfl⟩
                | false =>
                  cases hcv : w.cacheStore (cacheKeyUrl CACHE_VERSION (normalizeFull s)) with
                  | none =>
                    cases ho : (runTranslate w.script (normalizeFull s)).result with
                    | none => exact ⟨rfl, rfl⟩
                    | some r => exact ⟨rfl, rfl⟩
                  | some cb =>
                    cases cb with
                    | ok v => exact ⟨rfl, rfl⟩
                    | junk =>
                      cases ho : (runTranslate w.script (normalizeFull s)).result with
                      | none => exact ⟨rfl, rfl⟩
                      | some r => exact ⟨rfl, rfl⟩
              | deniedDaily =>
                dsimp only
                cases getDailyUsageE w.cfg w.quotaGetFault w.today snd with
                | mk ufst usnd => cases ufst <;> exact ⟨rfl, rfl⟩
              | deniedWindow =>
                dsimp only
                cases getDailyUsageE w.cfg w.quotaGetFault w.today snd with
                | mk ufst usnd => cases ufst <;> exact ⟨rfl, rfl⟩
              | deniedBurst =>
                dsimp only
                cases getDailyUsageE w.cfg w.quotaGetFault w.today snd with
                | mk ufst usnd => cases ufst <;> exact ⟨rfl, rfl⟩
  · unfold handleTranslate
    dsimp only
    cases w.apiKey with
    | none => exact ⟨rfl, rfl⟩
    | some k =>
      dsimp only
      by_cases h1 : 200 < (normalizeFull s).length
      · rw [if_pos h1, if_pos h1]
        exact ⟨rfl, rfl⟩
      · rw [if_neg h1, if_neg h1]
        by_cases h2 : normalizeFull s = ""
        · rw [if_pos h2, if_pos h2]
          exact ⟨rfl, rfl⟩
        · rw [if_neg h2, if_neg h2]
          cases hr : checkRateLimitE w.quotaGetFault w.quotaPutFault w.cfg w.now
              w.today (pickIp w.hdrCfIp w.hdrXff) w.rate with
          | mk fst snd =>
            cases fst with
            | error e => exact ⟨rfl, rfl⟩
            | ok rr =>
              cases rr with
              | allowed =>
                dsimp only
                cases ho : (runTranslate w.script (normalizeFull s)).result with
                | none => exact ⟨rfl, rfl⟩
                | some r => exact ⟨rfl, rfl⟩
              | deniedDaily =>
                dsimp only
                cases getDailyUsageE w.cfg w.quotaGetFault w.today snd with
                | mk ufst usnd => cases ufst <;> exact ⟨rfl, rfl⟩
              | deniedWindow =>
                dsimp only
                cases getDailyUsageE w.cfg w.quotaGetFault w.today snd with
                | mk ufst usnd => cases ufst <;> exact ⟨rfl, rfl⟩
              | deniedBurst =>
                dsimp only
                cases getDailyUsageE w.cfg w.quotaGetFault w.today snd with
                | mk ufst usnd => cases ufst <;> exact ⟨rfl, rfl⟩

/-- C7 counterexample: a quota-store I/O error is not swallowed — the
exception thrown inside `checkRateLimit` propagates to the handler's
catch-all, so the request answers 500 where the identical fault-free
request answers 200.  The quota half of the claim is false (only cache
errors are caught). -/
theorem c7_counterexample :
    (handleTranslate c7Fault "every day at 3 pm").status = 500 ∧
    (handleTranslate c7Fault "every day at 3 pm").body = .errMsg "Internal server error" ∧
    (handleTranslate c7Ok "every day at 3 pm").status = 200 := by
  exact ⟨rfl, rfl, rfl⟩

end Kronilo
